import Mathlib

/-!
Shallow embedding of the cademeubau bus-GPS proxy (src/server.js, src/api/index.js,
src/unnamed/part_000) and proofs about its fetch-transform-cache pipeline.

JavaScript numbers are idealised as exact values: a `JSNum` is either a rational,
NaN, or a signed infinity.  This drops float64 rounding/overflow but keeps the
NaN/Infinity distinctions the program's checks (`isNaN`, truthiness) depend on.
-/

/-- A JavaScript number: an exact rational, NaN, or a signed infinity. -/
inductive JSNum where
  | finite (q : ℚ)
  | nan
  | posInf
  | negInf
deriving DecidableEq

/-- A JavaScript value as used by this program: primitives, arrays and
string-keyed objects (fields in insertion order, keys unique). -/
inductive JSValue where
  | undefined
  | null
  | bool (b : Bool)
  | num (n : JSNum)
  | str (s : String)
  | arr (elems : List JSValue)
  | obj (fields : List (String × JSValue))

/-- JavaScript whitespace skipped by `parseFloat` (common cases: space, tab,
line feed, carriage return, vertical tab, form feed). -/
def isJsSpace (c : Char) : Bool :=
  c = ' ' || c = '\t' || c = '\n' || c = '\r' || c = Char.ofNat 11 || c = Char.ofNat 12

/-- Numeric value of a decimal digit character. -/
def digitVal (c : Char) : ℕ :=
  c.toNat - '0'.toNat

/-- Split a character list into its leading run of decimal digits and the rest. -/
def takeDigits : List Char → List ℕ × List Char
  | [] => ([], [])
  | c :: rest =>
    if c.isDigit then
      let p := takeDigits rest
      (digitVal c :: p.1, p.2)
    else ([], c :: rest)

/-- Value of a digit list read most-significant first. -/
def digitsToNat (ds : List ℕ) : ℕ :=
  ds.foldl (fun a d => a * 10 + d) 0

/-- The exponent part of a `parseFloat` literal: an optional `e`/`E`, sign and
digits; an `e` not followed by digits contributes exponent 0 (JS ignores it). -/
def parseExponent (cs : List Char) : ℤ :=
  match cs with
  | [] => 0
  | e :: r =>
    if e = 'e' || e = 'E' then
      let sr : ℤ × List Char :=
        match r with
        | '-' :: rr => (-1, rr)
        | '+' :: rr => (1, rr)
        | rr => (1, rr)
      let eds := (takeDigits sr.2).1
      if eds = [] then 0 else sr.1 * (digitsToNat eds : ℤ)
    else 0

/-- JavaScript `parseFloat` on a string: skip leading whitespace, read an
optional sign, then either the keyword `Infinity` or the longest decimal
literal prefix (digits, optional fraction, optional exponent); NaN when no
literal is present.  Trailing characters are ignored. -/
def parseFloatStr (s : String) : JSNum :=
  let cs0 := s.data.dropWhile isJsSpace
  let signAndRest : Bool × List Char :=
    match cs0 with
    | '-' :: r => (true, r)
    | '+' :: r => (false, r)
    | r => (false, r)
  let neg := signAndRest.1
  let cs := signAndRest.2
  if cs.take 8 = "Infinity".data then
    if neg then .negInf else .posInf
  else
    let ip := takeDigits cs
    let intDs := ip.1
    let fp : List ℕ × List Char :=
      match ip.2 with
      | '.' :: r => takeDigits r
      | r => ([], r)
    let fracDs := fp.1
    if intDs = [] ∧ fracDs = [] then .nan
    else
      let mant : ℚ :=
        (digitsToNat intDs : ℚ) + (digitsToNat fracDs : ℚ) / ((10 : ℚ) ^ fracDs.length)
      let q : ℚ := mant * (10 : ℚ) ^ parseExponent fp.2
      .finite (if neg then -q else q)

/-- Decimal digits of the fractional part of a nonnegative rational below 1
(fuel-bounded; exact whenever the expansion terminates within the fuel, which
covers every value this program produces). -/
def fracDigits : ℚ → ℕ → List Char
  | _, 0 => []
  | q, fuel + 1 =>
    if q = 0 then []
    else
      let q10 := q * 10
      let d := q10.floor.toNat
      Char.ofNat ('0'.toNat + d) :: fracDigits (q10 - q10.floor) fuel

/-- Decimal rendering of a nonnegative rational (integer part, then fractional
digits when nonzero). -/
def posRatString (q : ℚ) : String :=
  let ip := q.floor.toNat
  let frac := q - q.floor
  if frac = 0 then toString ip
  else toString ip ++ "." ++ String.mk (fracDigits frac 30)

/-- JavaScript `ToString` on a number (idealised decimal rendering; the
exponent notation JS switches to for very large or small magnitudes is not
modelled, as no value of this program reaches it). -/
def jsNumToString : JSNum → String
  | .nan => "NaN"
  | .posInf => "Infinity"
  | .negInf => "-Infinity"
  | .finite q => if q < 0 then "-" ++ posRatString (-q) else posRatString q

mutual

/-- JavaScript `ToString` on a value: strings are themselves, numbers render
in decimal, booleans and null/undefined use their keywords, plain objects give
"[object Object]", and arrays join their elements with commas. -/
def jsToString : JSValue → String
  | .undefined => "undefined"
  | .null => "null"
  | .bool b => cond b "true" "false"
  | .num n => jsNumToString n
  | .str s => s
  | .obj _ => "[object Object]"
  | .arr xs => String.intercalate "," (joinParts xs)

/-- Elements of an array as rendered by `Array.prototype.join`: null and
undefined render empty, everything else via `jsToString`. -/
def joinParts : List JSValue → List String
  | [] => []
  | x :: r =>
    (match x with
     | .null => ""
     | .undefined => ""
     | v => jsToString v) :: joinParts r

end

/-- JavaScript `parseFloat` applied to an arbitrary value: numbers pass
through exactly (parse of their rendering is the identity in the exact
model), everything else is rendered with `ToString` and parsed. -/
def parseFloatVal : JSValue → JSNum
  | .num n => n
  | v => parseFloatStr (jsToString v)

/-- JavaScript truthiness. -/
def truthy : JSValue → Bool
  | .undefined => false
  | .null => false
  | .bool b => b
  | .num .nan => false
  | .num (.finite q) => decide (q ≠ 0)
  | .num .posInf => true
  | .num .negInf => true
  | .str s => decide (s ≠ "")
  | .obj _ => true
  | .arr _ => true

/-- Strict equality against the empty string (`=== ''`). -/
def isEmptyStr : JSValue → Bool
  | .str s => decide (s = "")
  | _ => false

/-- The `isNaN` test the program applies to already-converted numbers. -/
def jsIsNaN : JSNum → Bool
  | .nan => true
  | _ => false

/-- Property read `o[k]`: lookup on objects, `undefined` elsewhere.  The
program only reads properties of values it has checked are not
null/undefined, so no throwing case is needed here. -/
def jsGet : JSValue → String → JSValue
  | .obj fields, k => (List.lookup k fields).getD .undefined
  | _, _ => .undefined

/-- JavaScript `a || b`. -/
def jsOr (a b : JSValue) : JSValue :=
  if truthy a then a else b

/-- Property write `o[k] = v` on an object with unique keys: replace the
first binding of `k` in place, or append a new binding. -/
def objSet : List (String × JSValue) → String → JSValue → List (String × JSValue)
  | [], k, v => [(k, v)]
  | p :: rest, k, v => if p.1 = k then (k, v) :: rest else p :: objSet rest k v

/-- Assign `g k` to key `k` for each `k` of `ks` in order, starting from
`base` (the object-literal spread in `processData`). -/
def setFold (base : List (String × JSValue)) (g : String → JSValue) : List String → List (String × JSValue)
  | [] => base
  | k :: ks => setFold (objSet base k (g k)) g ks

/-- Whether a string is a canonical array-index property name (a decimal
numeral without leading zeros, below 2^32 - 1); such keys sort first in
`Object.keys` order. -/
def isArrayIndexKey (s : String) : Bool :=
  match s.data with
  | [] => false
  | c :: rest =>
    (c :: rest).all Char.isDigit &&
    (decide (c ≠ '0') || decide (rest = [])) &&
    digitsToNat ((c :: rest).map digitVal) < 4294967295

/-- Numeric value of an array-index key. -/
def idxVal (s : String) : ℕ :=
  digitsToNat (s.data.map digitVal)

/-- Insert a key into an ascending-by-index key list. -/
def insertIdxKey (k : String) : List String → List String
  | [] => [k]
  | a :: r => if idxVal k < idxVal a then k :: a :: r else a :: insertIdxKey k r

/-- Sort array-index keys ascending by numeric value. -/
def sortIdxKeys (l : List String) : List String :=
  l.foldr insertIdxKey []

/-- The `Object.keys` ordering: canonical array-index keys first in ascending
numeric order, then the remaining string keys in insertion order. -/
def jsOwnKeys (fields : List (String × JSValue)) : List String :=
  let ks := fields.map Prod.fst
  sortIdxKeys (ks.filter (fun k => isArrayIndexKey k)) ++ ks.filter (fun k => !isArrayIndexKey k)

/-- Own enumerable keys of a value (`Object.keys`); the program only reaches
this for plain objects. -/
def jsOwnKeysOf : JSValue → List String
  | .obj fields => jsOwnKeys fields
  | _ => []

/-- The keys `processData`'s spread skips (the consumed location key and
top-level latitude/longitude). -/
def excludedKeys : List String :=
  ["localizacao", "latitude", "longitude"]

/-- The record normaliser `processData` of src/server.js lines 88-119 (the
same function appears in src/api/index.js lines 106-128).  Returns
`.error ()` when the JS code would throw (property access on null/undefined),
`.ok none` for a rejected vehicle, and `.ok (some record)` on success. -/
def processData (vehicle : JSValue) : Except Unit (Option JSValue) :=
  match vehicle with
  | .undefined => .error ()
  | .null => .error ()
  | v =>
    let loc := jsGet v "localizacao"
    if truthy loc = false then .ok none
    else
      let latv := jsGet loc "latitude"
      let lngv := jsGet loc "longitude"
      if !truthy latv || !truthy lngv || isEmptyStr latv || isEmptyStr lngv then .ok none
      else
        let lat := parseFloatVal latv
        let lng := parseFloatVal lngv
        if jsIsNaN lat || jsIsNaN lng then .ok none
        else
          let base : List (String × JSValue) :=
            [("GPS_Latitude", .num lat), ("GPS_Longitude", .num lng),
             ("numero", jsOr (jsGet v "numero") (.str "")),
             ("linha", jsOr (jsGet v "linha") (.str "")),
             ("direcao", jsOr (jsGet v "direcao") (.num (.finite 0)))]
          let ks := (jsOwnKeysOf v).filter (fun k => !(decide (k ∈ excludedKeys)))
          .ok (some (.obj (setFold base (jsGet v) ks)))

/-- The fixed allow-list of `applyFilters`. -/
def allowedLines : List String :=
  ["0.195", "147.5", "147.6", "180.1", "180.2",
   "181.2", "181.4", "8002", "106.2", "0.147",
   "2207", "2209"]

/-- Whether a record's `linha` is in the allow-list (`includes` uses strict
equality, so only an equal string matches the string list). -/
def linhaAllowed (v : JSValue) : Bool :=
  match jsGet v "linha" with
  | .str s => decide (s ∈ allowedLines)
  | _ => false

/-- The line filter `applyFilters` of src/server.js lines 121-129. -/
def applyFilters (data : List JSValue) : List JSValue :=
  data.filter linhaAllowed

/-- The static filter flag (`FILTER`), false in both source files. -/
def FILTER : Bool := false

/-- Outcome of the single upstream fetch attempt a cycle makes: failure
(transport, HTTP, or JSON-decode error thrown by `fetchJSON` /
`response.json()`), or success with the parsed body. -/
inductive FetchOutcome where
  | failure
  | success (body : JSValue)

/-- JavaScript `for ... of`: arrays iterate elements, strings iterate their
characters as one-character strings, everything else throws. -/
def iterateJS : JSValue → Except Unit (List JSValue)
  | .arr xs => .ok xs
  | .str s => .ok (s.data.map fun c => .str (String.mk [c]))
  | _ => .error ()

/-- The per-operator vehicle map `operadora.veiculos.map(processData)`:
left-to-right, aborting at the first thrown error. -/
def mapProcess : List JSValue → Except Unit (List (Option JSValue))
  | [] => .ok []
  | v :: vs =>
    match processData v with
    | .error e => .error e
    | .ok r =>
      match mapProcess vs with
      | .error e => .error e
      | .ok rs => .ok (r :: rs)

/-- The operator loop of `getData`: for each operator, when
`operadora.veiculos && Array.isArray(operadora.veiculos)` holds (which is
exactly when the value is an array, arrays being truthy), map `processData`
over the vehicles and concatenate; reading `.veiculos` of a null or undefined
operator throws. -/
def processOps : List JSValue → Except Unit (List (Option JSValue))
  | [] => .ok []
  | op :: rest =>
    match op with
    | .undefined => .error ()
    | .null => .error ()
    | op =>
      match jsGet op "veiculos" with
      | .arr vs =>
        match mapProcess vs with
        | .error e => .error e
        | .ok part =>
          match processOps rest with
          | .error e => .error e
          | .ok more => .ok (part ++ more)
      | _ => processOps rest

/-- The whole normalisation of one upstream body: iterate the payload,
process every operator, then drop the rejected (`null`) entries
(`.filter(item => item !== null)`). -/
def processPayload (body : JSValue) : Except Unit (List JSValue) :=
  match iterateJS body with
  | .error e => .error e
  | .ok ops =>
    match processOps ops with
    | .error e => .error e
    | .ok withNulls => .ok (withNulls.filterMap id)

/-- The in-memory `DataCache` of src/server.js lines 11-30: a single slot
(`data`, null when empty) and the timestamp of the last write, in
milliseconds. -/
structure MemCache where
  data : Option (List JSValue)
  timestamp : Int

/-- The freshness window of the in-memory cache (5 seconds, in ms). -/
def CACHE_MS : Int := 5 * 1000

/-- The freshness test `DataCache.isValid`: a value is present and was written less than the
freshness window ago. -/
def isValid (c : MemCache) (now : Int) : Bool :=
  c.data.isSome && decide (now - c.timestamp < CACHE_MS)

/-- The write `DataCache.set`: overwrite the slot and stamp it with the current time. -/
def cacheSet (now : Int) (d : List JSValue) : MemCache :=
  { data := some d, timestamp := now }

/-- Result of one `getData` invocation: the value returned or the error
rethrown, the cache state afterwards, and how many upstream calls were
made. -/
structure CycleResult where
  ret : Except Unit (List JSValue)
  cache : MemCache
  fetches : ℕ

/-- The catch-block of src/server.js `getData`: return the cached data even
if expired when the slot is non-null (`if (cache.data)`), otherwise rethrow. -/
def staleFallback (c : MemCache) : CycleResult :=
  match c.data with
  | some d => { ret := .ok d, cache := c, fetches := 1 }
  | none => { ret := .error (), cache := c, fetches := 1 }

/-- The orchestrator `getData` of src/server.js lines 39-86, as a function of
the cache state, the current time, and the outcome the single upstream fetch
would have.  On a fresh cache it returns the slot without fetching; on a miss
it fetches, normalises, optionally filters, writes the cache and returns; any
failure after the miss falls back to the stale slot or rethrows. -/
def getData (c : MemCache) (now : Int) (f : FetchOutcome) : CycleResult :=
  if isValid c now then
    { ret := .ok (c.data.getD []), cache := c, fetches := 0 }
  else
    match f with
    | .failure => staleFallback c
    | .success body =>
      match processPayload body with
      | .error _ => staleFallback c
      | .ok l =>
        let l2 := if FILTER then applyFilters l else l
        { ret := .ok l2, cache := cacheSet now l2, fetches := 1 }

/-- The Redis-backed cache of src/api/index.js: at most one entry under the
key `bus_data`, stored with an absolute expiry time (seconds).  The
JSON stringify/parse round-trip of the stored value is idealised as the
identity. -/
structure RedisState where
  entry : Option (List JSValue × Int)

/-- The TTL passed to `setEx` (`CACHE_DURATION`, 10 seconds). -/
def CACHE_DURATION : Int := 10

/-- A Redis `GET`: the value while the TTL has not elapsed; the backend has
purged the key (returns null) once it has. -/
def redisGet (s : RedisState) (now : Int) : Option (List JSValue) :=
  match s.entry with
  | none => none
  | some (v, expiry) => if now < expiry then some v else none

/-- A Redis `SETEX` with the fixed TTL: overwrite the slot, expiring
`CACHE_DURATION` seconds from now. -/
def redisSetEx (now : Int) (v : List JSValue) : RedisState :=
  { entry := some (v, now + CACHE_DURATION) }

/-- Result of one invocation of the Redis-backed `getData`. -/
structure ApiCycleResult where
  ret : Except Unit (List JSValue)
  state : RedisState
  fetches : ℕ

/-- The catch-block of src/api/index.js `getData`: re-read the key and return
it when present, otherwise rethrow the original error. -/
def apiFallback (s : RedisState) (now : Int) : ApiCycleResult :=
  match redisGet s now with
  | some d => { ret := .ok d, state := s, fetches := 1 }
  | none => { ret := .error (), state := s, fetches := 1 }

/-- The orchestrator `getData` of src/api/index.js lines 63-104 over the
Redis-backed cache. -/
def getDataApi (s : RedisState) (now : Int) (f : FetchOutcome) : ApiCycleResult :=
  match redisGet s now with
  | some d => { ret := .ok d, state := s, fetches := 0 }
  | none =>
    match f with
    | .failure => apiFallback s now
    | .success body =>
      match processPayload body with
      | .error _ => apiFallback s now
      | .ok l =>
        let l2 := if FILTER then applyFilters l else l
        { ret := .ok l2, state := redisSetEx now l2, fetches := 1 }

/-- Whether a JS number is a finite float (spec-side notion used by the
claims about "parseable as a finite float"). -/
def isFiniteNum : JSNum → Bool
  | .finite _ => true
  | _ => false

/-- Spec-side notion of a valid numeric coordinate as the claims state it: a
finite number, or a string that parses to a finite float. -/
def validNumericCoord : JSValue → Bool
  | .num n => isFiniteNum n
  | .str s => isFiniteNum (parseFloatStr s)
  | _ => false

/-- The normalised record a vehicle contributes, claim-side view: `some`
record when `processData` succeeds with one, `none` otherwise. -/
def okRecord (v : JSValue) : Option JSValue :=
  match processData v with
  | .ok r => r
  | .error _ => none

/-- Claim-side contribution of one operator entry: the non-rejected
normalised records of its vehicle array, or nothing when it lacks one. -/
def opContribution (op : JSValue) : List JSValue :=
  match jsGet op "veiculos" with
  | .arr vs => vs.filterMap okRecord
  | _ => []

/-- The example vehicle of the spec's end-to-end test. -/
def vehEx : JSValue :=
  .obj [("localizacao", .obj [("latitude", .str "-15.79"), ("longitude", .str "-47.88")]),
        ("numero", .str "123"), ("linha", .str "2207")]

/-- The example upstream payload of the spec's end-to-end test. -/
def payloadEx : JSValue :=
  .arr [.obj [("veiculos", .arr [vehEx])]]

/-- The canonical record the example payload normalises to (the spec names
these fields latitude/longitude/vehicleNumber/lineId/heading; in the code
they are GPS_Latitude/GPS_Longitude/numero/linha/direcao). -/
def recEx : JSValue :=
  .obj [("GPS_Latitude", .num (.finite (-(1579 / 100 : ℚ)))),
        ("GPS_Longitude", .num (.finite (-(4788 / 100 : ℚ)))),
        ("numero", .str "123"), ("linha", .str "2207"),
        ("direcao", .num (.finite 0))]

/-- A minimal canonical record with the given line id. -/
def recOf (l : String) : JSValue :=
  .obj [("linha", .str l)]

/-- A cycle's fetch-or-processing step fails: the fetch itself fails, or the
fetched body throws during normalisation. -/
def cycleFails : FetchOutcome → Prop
  | .failure => True
  | .success body => processPayload body = .error ()

/-- A vehicle with numeric coordinates, used as a concrete test input. -/
def vehSimple : JSValue :=
  .obj [("localizacao", .obj [("latitude", .num (.finite 5)), ("longitude", .num (.finite 7))]),
        ("numero", .str "123"), ("linha", .str "2207")]

/-- The canonical record `vehSimple` normalises to. -/
def recSimple : JSValue :=
  .obj [("GPS_Latitude", .num (.finite 5)), ("GPS_Longitude", .num (.finite 7)),
        ("numero", .str "123"), ("linha", .str "2207"), ("direcao", .num (.finite 0))]

/-- A one-operator payload around `vehSimple`. -/
def payloadSimple : JSValue :=
  .arr [.obj [("veiculos", .arr [vehSimple])]]

/-- A vehicle whose latitude is the number 0 (a perfectly valid equator
coordinate, but falsy in JS). -/
def vehZero : JSValue :=
  .obj [("localizacao", .obj [("latitude", .num (.finite 0)), ("longitude", .num (.finite 7))])]

/-- A vehicle whose latitude is the string "Infinity" (parses to a non-finite
float). -/
def vehInf : JSValue :=
  .obj [("localizacao", .obj [("latitude", .str "Infinity"), ("longitude", .num (.finite 1))])]

/-- The record the code actually produces for `vehInf`. -/
def recInf : JSValue :=
  .obj [("GPS_Latitude", .num .posInf), ("GPS_Longitude", .num (.finite 1)),
        ("numero", .str ""), ("linha", .str ""), ("direcao", .num (.finite 0))]

/-- The rejection condition the normaliser actually implements, stated on the
input (amended claim C2): missing/falsy location, falsy latitude or longitude
(absent, null, false, the number 0, NaN, or the empty string), or a parse
that yields NaN.  Non-finite parses such as Infinity are accepted. -/
def rejectsAmended (v : JSValue) : Bool :=
  let loc := jsGet v "localizacao"
  !truthy loc || !truthy (jsGet loc "latitude") || !truthy (jsGet loc "longitude") ||
  jsIsNaN (parseFloatVal (jsGet loc "latitude")) || jsIsNaN (parseFloatVal (jsGet loc "longitude"))

/-- C8: the example payload of the spec, on a cache-miss cycle, returns
exactly the one expected canonical record and caches it (the spec's field
names latitude/longitude/vehicleNumber/lineId/heading denote the code's
GPS_Latitude/GPS_Longitude/numero/linha/direcao). -/
theorem c8_end_to_end_example :
    getData ⟨none, 0⟩ 0 (.success payloadEx) =
      ⟨.ok [recEx], cacheSet 0 [recEx], 1⟩ := by
  have hp1 : parseFloatStr "-15.79" = JSNum.finite (-(1579 / 100 : ℚ)) := by
    have h : parseFloatStr "-15.79" =
        JSNum.finite (-(((digitsToNat [1, 5] : ℚ) +
          (digitsToNat [7, 9] : ℚ) / ((10 : ℚ) ^ (2 : ℕ))) * (10 : ℚ) ^ (0 : ℤ))) := rfl
    rw [h]
    norm_num [digitsToNat]
  have hp2 : parseFloatStr "-47.88" = JSNum.finite (-(4788 / 100 : ℚ)) := by
    have h : parseFloatStr "-47.88" =
        JSNum.finite (-(((digitsToNat [4, 7] : ℚ) +
          (digitsToNat [8, 8] : ℚ) / ((10 : ℚ) ^ (2 : ℕ))) * (10 : ℚ) ^ (0 : ℤ))) := rfl
    rw [h]
    norm_num [digitsToNat]
  have h : getData ⟨none, 0⟩ 0 (.success payloadEx) =
      ⟨.ok [.obj [("GPS_Latitude", .num (parseFloatStr "-15.79")),
                  ("GPS_Longitude", .num (parseFloatStr "-47.88")),
                  ("numero", .str "123"), ("linha", .str "2207"),
                  ("direcao", .num (.finite 0))]],
       cacheSet 0 [.obj [("GPS_Latitude", .num (parseFloatStr "-15.79")),
                  ("GPS_Longitude", .num (parseFloatStr "-47.88")),
                  ("numero", .str "123"), ("linha", .str "2207"),
                  ("direcao", .num (.finite 0))]], 1⟩ := rfl
  rw [hp1, hp2] at h
  exact h

/-- On a cache miss, a failing cycle (failed fetch or throwing normalisation)
lands in the catch-block fallback. -/
theorem getData_miss_fail {c : MemCache} {now : Int} {f : FetchOutcome}
    (h : isValid c now = false) (hf : cycleFails f) :
    getData c now f = staleFallback c := by
  cases f with
  | failure => simp [getData, h]
  | success body =>
    have hb : processPayload body = .error () := hf
    simp [getData, h, hb]

/-- On a cache miss with a successful fetch and normalisation, `getData`
returns the records, writes them to the cache, and counts one fetch. -/
theorem getData_miss_ok {c : MemCache} {now : Int} {body : JSValue} {l : List JSValue}
    (h : isValid c now = false) (hp : processPayload body = .ok l) :
    getData c now (.success body) = ⟨.ok l, cacheSet now l, 1⟩ := by
  simp [getData, h, hp, FILTER]

/-- On a fresh cache, `getData` returns the slot with no fetch. -/
theorem getData_hit {c : MemCache} {now : Int} {f : FetchOutcome} {d : List JSValue}
    (hv : isValid c now = true) (hd : c.data = some d) :
    getData c now f = ⟨.ok d, c, 0⟩ := by
  simp [getData, hv, hd]

/-- Whenever the slot holds a value and the cycle's fetch-or-processing
fails (or the cache is simply fresh), the call returns the stored value. -/
theorem getData_ret_of_data_some {c : MemCache} {now : Int} {f : FetchOutcome}
    {d : List JSValue} (hd : c.data = some d) (hf : cycleFails f) :
    (getData c now f).ret = .ok d := by
  cases hv : isValid c now with
  | true => rw [getData_hit hv hd]
  | false =>
    rw [getData_miss_fail hv hf]
    simp [staleFallback, hd]

/-- C3: on a miss whose fetch or processing fails, the orchestrator returns
the cached value whenever one is present — regardless of freshness — and
propagates the failure only when the slot is empty; consequently a cycle
following a successful one returns the earlier cycle's result when it fails. -/
theorem c3_stale_fallback :
    (∀ (c : MemCache) (now : Int) (f : FetchOutcome) (d : List JSValue),
       isValid c now = false → cycleFails f → c.data = some d →
       getData c now f = ⟨.ok d, c, 1⟩) ∧
    (∀ (c : MemCache) (now : Int) (f : FetchOutcome),
       isValid c now = false → cycleFails f → c.data = none →
       getData c now f = ⟨.error (), c, 1⟩) ∧
    (∀ (c0 : MemCache) (t1 t2 : Int) (body : JSValue) (l : List JSValue) (f2 : FetchOutcome),
       isValid c0 t1 = false → processPayload body = .ok l → cycleFails f2 →
       (getData (getData c0 t1 (.success body)).cache t2 f2).ret =
         (getData c0 t1 (.success body)).ret) := by
  refine ⟨?_, ?_, ?_⟩
  · intro c now f d h hf hd
    rw [getData_miss_fail h hf]
    simp [staleFallback, hd]
  · intro c now f h hf hd
    rw [getData_miss_fail h hf]
    simp [staleFallback, hd]
  · intro c0 t1 t2 body l f2 h1 hp hf2
    rw [getData_miss_ok h1 hp]
    exact getData_ret_of_data_some rfl hf2

/-- Witness for C3 at a concrete input: an expired cache slot holding `[]`
and a failing fetch. -/
theorem c3_stale_fallback_witness :
    isValid ⟨some [], 0⟩ 99999 = false ∧ cycleFails .failure ∧
    (⟨some [], 0⟩ : MemCache).data = some [] ∧
    getData ⟨some [], 0⟩ 99999 .failure = ⟨.ok [], ⟨some [], 0⟩, 1⟩ :=
  ⟨rfl, trivial, rfl, c3_stale_fallback.1 ⟨some [], 0⟩ 99999 .failure [] rfl trivial rfl⟩

/-- C4: after a miss cycle with a successful fetch, a second call within the
freshness window returns the identical result, performs no upstream call, and
leaves the cache untouched — one upstream call total across the two calls. -/
theorem c4_fresh_hit_idempotent :
    ∀ (c0 : MemCache) (t1 t2 : Int) (body : JSValue) (l : List JSValue) (f2 : FetchOutcome),
      isValid c0 t1 = false → processPayload body = .ok l →
      t1 ≤ t2 → t2 - t1 < CACHE_MS →
      (getData (getData c0 t1 (.success body)).cache t2 f2).ret =
        (getData c0 t1 (.success body)).ret ∧
      (getData c0 t1 (.success body)).fetches = 1 ∧
      (getData (getData c0 t1 (.success body)).cache t2 f2).fetches = 0 ∧
      (getData (getData c0 t1 (.success body)).cache t2 f2).cache =
        (getData c0 t1 (.success body)).cache := by
  intro c0 t1 t2 body l f2 h1 hp hle hwin
  have hv : isValid (cacheSet t1 l) t2 = true := by
    simp only [isValid, cacheSet, Option.isSome_some, Bool.true_and]
    exact decide_eq_true hwin
  rw [getData_miss_ok h1 hp]
  simp [getData_hit hv rfl]

/-- Witness for C4 at a concrete input: empty cache, the simple payload, a
second call 3 seconds later. -/
theorem c4_fresh_hit_idempotent_witness :
    isValid ⟨none, 0⟩ 0 = false ∧ processPayload payloadSimple = .ok [recSimple] ∧
    (0 : Int) ≤ 3000 ∧ (3000 : Int) - 0 < CACHE_MS ∧
    ((getData (getData ⟨none, 0⟩ 0 (.success payloadSimple)).cache 3000 .failure).ret =
       (getData ⟨none, 0⟩ 0 (.success payloadSimple)).ret ∧
     (getData ⟨none, 0⟩ 0 (.success payloadSimple)).fetches = 1 ∧
     (getData (getData ⟨none, 0⟩ 0 (.success payloadSimple)).cache 3000 .failure).fetches = 0 ∧
     (getData (getData ⟨none, 0⟩ 0 (.success payloadSimple)).cache 3000 .failure).cache =
       (getData ⟨none, 0⟩ 0 (.success payloadSimple)).cache) :=
  ⟨rfl, rfl, by norm_num, by norm_num [CACHE_MS],
   c4_fresh_hit_idempotent ⟨none, 0⟩ 0 3000 payloadSimple [recSimple] .failure rfl rfl
     (by norm_num) (by norm_num [CACHE_MS])⟩

/-- A successful vehicle map yields, after dropping nulls, exactly the
non-rejected records of the vehicle list in order. -/
theorem mapProcess_filterMap :
    ∀ {vs : List JSValue} {l : List (Option JSValue)},
      mapProcess vs = .ok l → l.filterMap id = vs.filterMap okRecord := by
  intro vs
  induction vs with
  | nil =>
    intro l h
    simp only [mapProcess, Except.ok.injEq] at h
    subst h
    rfl
  | cons v vs ih =>
    intro l h
    simp only [mapProcess] at h
    cases hp : processData v with
    | error e => rw [hp] at h; cases h
    | ok r =>
      simp only [hp] at h
      cases hm : mapProcess vs with
      | error e => rw [hm] at h; cases h
      | ok rs =>
        simp only [hm, Except.ok.injEq] at h
        subst h
        have hok : okRecord v = r := by simp [okRecord, hp]
        cases r with
        | none => simp [List.filterMap_cons, hok, ih hm]
        | some x => simp [List.filterMap_cons, hok, ih hm]

/-- A successful operator loop yields, after dropping nulls, the
concatenation of the operators' contributions in operator order. -/
theorem processOps_flatten :
    ∀ {ops : List JSValue} {l : List (Option JSValue)},
      processOps ops = .ok l →
      l.filterMap id = (ops.map opContribution).flatten := by
  intro ops
  induction ops with
  | nil =>
    intro l h
    simp only [processOps, Except.ok.injEq] at h
    subst h
    rfl
  | cons op rest ih =>
    intro l h
    cases op with
    | undefined => simp [processOps] at h
    | null => simp [processOps] at h
    | bool b =>
      simp only [processOps] at h
      simp [opContribution, jsGet, ih h]
    | num n =>
      simp only [processOps] at h
      simp [opContribution, jsGet, ih h]
    | str s =>
      simp only [processOps] at h
      simp [opContribution, jsGet, ih h]
    | arr elems =>
      simp only [processOps] at h
      simp [opContribution, jsGet, ih h]
    | obj fields =>
      cases hv : jsGet (.obj fields) "veiculos" with
      | arr vs =>
        simp only [processOps, hv] at h
        cases hm : mapProcess vs with
        | error e => rw [hm] at h; cases h
        | ok part =>
          simp only [hm] at h
          cases ho : processOps rest with
          | error e => rw [ho] at h; cases h
          | ok more =>
            simp only [ho, Except.ok.injEq] at h
            subst h
            simp [opContribution, hv, List.filterMap_append,
                  mapProcess_filterMap hm, ih ho]
      | undefined =>
        simp only [processOps, hv] at h
        simp [opContribution, hv, ih h]
      | null =>
        simp only [processOps, hv] at h
        simp [opContribution, hv, ih h]
      | bool b =>
        simp only [processOps, hv] at h
        simp [opContribution, hv, ih h]
      | num n =>
        simp only [processOps, hv] at h
        simp [opContribution, hv, ih h]
      | str s =>
        simp only [processOps, hv] at h
        simp [opContribution, hv, ih h]
      | obj f2 =>
        simp only [processOps, hv] at h
        simp [opContribution, hv, ih h]

/-- C5: on a miss with a successful fetch of an operator array, the result is
the flattened, order-preserving concatenation of every operator's
non-rejected normalised records (operators without a vehicle array contribute
nothing); the result is written to the cache and returned (the filter being
statically disabled, it passes through). -/
theorem c5_payload_concatenation :
    ∀ (c : MemCache) (now : Int) (ops : List JSValue) (l : List JSValue),
      isValid c now = false → processPayload (.arr ops) = .ok l →
      l = (ops.map opContribution).flatten ∧
      getData c now (.success (.arr ops)) = ⟨.ok l, cacheSet now l, 1⟩ := by
  intro c now ops l h hp
  constructor
  · rw [processPayload] at hp
    simp only [iterateJS] at hp
    cases ho : processOps ops with
    | error e => rw [ho] at hp; cases hp
    | ok withNulls =>
      rw [ho] at hp
      cases hp
      exact processOps_flatten ho
  · exact getData_miss_ok h hp

/-- Witness for C5 at a concrete input: a two-operator payload whose first
operator holds one valid and one rejected vehicle and whose second operator
lacks a vehicle array. -/
theorem c5_payload_concatenation_witness :
    isValid ⟨none, 0⟩ 0 = false ∧
    processPayload (.arr [.obj [("veiculos", .arr [vehSimple, vehZero])], .obj []]) =
      .ok [recSimple] ∧
    ([recSimple] : List JSValue) =
      (([.obj [("veiculos", .arr [vehSimple, vehZero])], .obj []] : List JSValue).map
        opContribution).flatten ∧
    getData ⟨none, 0⟩ 0 (.success (.arr [.obj [("veiculos", .arr [vehSimple, vehZero])], .obj []])) =
      ⟨.ok [recSimple], cacheSet 0 [recSimple], 1⟩ :=
  ⟨rfl, rfl,
   (c5_payload_concatenation ⟨none, 0⟩ 0
      [.obj [("veiculos", .arr [vehSimple, vehZero])], .obj []] [recSimple] rfl rfl).1,
   (c5_payload_concatenation ⟨none, 0⟩ 0
      [.obj [("veiculos", .arr [vehSimple, vehZero])], .obj []] [recSimple] rfl rfl).2⟩

/-- C6 (amended): the line filter returns the order-preserving subsequence of
records whose line id lies in the fixed allow-list; the static flag is
disabled, in which case the pipeline passes records through unchanged; and on
the records with line ids 2207, 180.1, 2209 it keeps all three, because
"180.1" is itself in the fixed allow-list. -/
theorem c6_line_filter :
    (∀ data : List JSValue, (applyFilters data).Sublist data) ∧
    (∀ (data : List JSValue) (v : JSValue),
       v ∈ applyFilters data ↔ v ∈ data ∧ linhaAllowed v = true) ∧
    FILTER = false ∧
    (∀ l : List JSValue, (if FILTER then applyFilters l else l) = l) ∧
    applyFilters [recOf "2207", recOf "180.1", recOf "2209"] =
      [recOf "2207", recOf "180.1", recOf "2209"] := by
  refine ⟨?_, ?_, rfl, ?_, rfl⟩
  · intro data
    exact List.filter_sublist data
  · intro data v
    simp [applyFilters, List.mem_filter]
  · intro l
    rfl

/-- Counterexample to C6 as stated: with the code's fixed allow-list, the
record with line id "180.1" is not filtered out (the list contains "180.1"),
so the result is all three records, not just the 2207/2209 pair. -/
theorem c6_line_filter_counterexample :
    applyFilters [recOf "2207", recOf "180.1", recOf "2209"] =
      [recOf "2207", recOf "180.1", recOf "2209"] ∧
    "180.1" ∈ allowedLines ∧
    applyFilters [recOf "2207", recOf "180.1", recOf "2209"] ≠
      [recOf "2207", recOf "2209"] := by
  refine ⟨rfl, by decide, ?_⟩
  intro h
  rw [show applyFilters [recOf "2207", recOf "180.1", recOf "2209"] =
        [recOf "2207", recOf "180.1", recOf "2209"] from rfl] at h
  exact absurd (congrArg List.length h) (by decide)

/-- C7 (amended, in-memory store): once the slot holds a value, every cycle
either leaves it untouched or overwrites it with the cycle's own returned
result — the slot is never cleared, and in particular never deleted by the
passage of time. -/
theorem c7_retention_in_memory :
    ∀ (c : MemCache) (now : Int) (f : FetchOutcome) (d : List JSValue),
      c.data = some d →
      (getData c now f).cache.data = some d ∨
      ∃ l, (getData c now f).ret = .ok l ∧ (getData c now f).cache.data = some l := by
  intro c now f d hd
  cases hv : isValid c now with
  | true => left; rw [getData_hit hv hd]; exact hd
  | false =>
    cases f with
    | failure =>
      left
      rw [@getData_miss_fail _ _ .failure hv trivial]
      simp [staleFallback, hd]
    | success body =>
      cases hp : processPayload body with
      | error e =>
        left
        have hcf : cycleFails (.success body) := by
          have : e = () := rfl
          simpa [cycleFails, this] using hp
        rw [getData_miss_fail hv hcf]
        simp [staleFallback, hd]
      | ok l =>
        right
        exact ⟨l, by rw [getData_miss_ok hv hp], by rw [getData_miss_ok hv hp]; rfl⟩

/-- Witness for the amended C7 at a concrete input: an expired slot holding
`[]` survives a failing cycle. -/
theorem c7_retention_in_memory_witness :
    (⟨some [], 0⟩ : MemCache).data = some [] ∧
    ((getData ⟨some [], 0⟩ 99999 .failure).cache.data = some [] ∨
     ∃ l, (getData ⟨some [], 0⟩ 99999 .failure).ret = .ok l ∧
       (getData ⟨some [], 0⟩ 99999 .failure).cache.data = some l) :=
  ⟨rfl, c7_retention_in_memory ⟨some [], 0⟩ 99999 .failure [] rfl⟩

/-- Counterexample to C7 as stated: the Redis-backed store of
src/api/index.js writes with `setEx` and a 10-second TTL, so the backend
purges the stored result once the TTL elapses — ten seconds after a
successful cycle the value is unreadable with no overwrite having happened,
and a failing cycle then propagates the error instead of serving it. -/
theorem c7_retention_counterexample :
    (∃ e, (getDataApi ⟨none⟩ 0 (.success payloadSimple)).state.entry = some e) ∧
    redisGet (getDataApi ⟨none⟩ 0 (.success payloadSimple)).state 10 = none ∧
    (getDataApi (getDataApi ⟨none⟩ 0 (.success payloadSimple)).state 10 .failure).ret =
      .error () :=
  ⟨⟨([recSimple], 10), rfl⟩, rfl, rfl⟩

/-- C10: a cycle either leaves the cache slot exactly as it was — in
particular on every failure path — or it is a fully successful miss cycle
whose computed result is written as the last step; this holds for the
in-memory store and for the Redis-backed store alike. -/
theorem c10_write_only_on_success :
    (∀ (c : MemCache) (now : Int) (f : FetchOutcome),
       (getData c now f).cache = c ∨
       ∃ body l, f = .success body ∧ processPayload body = .ok l ∧
         (getData c now f).ret = .ok l ∧ (getData c now f).cache = cacheSet now l) ∧
    (∀ (s : RedisState) (now : Int) (f : FetchOutcome),
       (getDataApi s now f).state = s ∨
       ∃ body l, f = .success body ∧ processPayload body = .ok l ∧
         (getDataApi s now f).ret = .ok l ∧ (getDataApi s now f).state = redisSetEx now l) := by
  constructor
  · intro c now f
    cases hv : isValid c now with
    | true => left; simp [getData, hv]
    | false =>
      cases f with
      | failure =>
        left
        rw [@getData_miss_fail _ _ .failure hv trivial]
        cases hd : c.data <;> simp [staleFallback, hd]
      | success body =>
        cases hp : processPayload body with
        | error e =>
          left
          have hcf : cycleFails (.success body) := by
            have : e = () := rfl
            simpa [cycleFails, this] using hp
          rw [getData_miss_fail hv hcf]
          cases hd : c.data <;> simp [staleFallback, hd]
        | ok l =>
          right
          exact ⟨body, l, rfl, hp, by rw [getData_miss_ok hv hp], by rw [getData_miss_ok hv hp]⟩
  · intro s now f
    cases hg : redisGet s now with
    | some d => left; simp [getDataApi, hg]
    | none =>
      cases f with
      | failure =>
        left
        simp [getDataApi, hg, apiFallback]
      | success body =>
        cases hp : processPayload body with
        | error e =>
          left
          simp [getDataApi, hg, hp, apiFallback]
        | ok l =>
          right
          refine ⟨body, l, rfl, hp, ?_, ?_⟩ <;>
            simp [getDataApi, hg, hp, FILTER]

/-- Looking a key up after a property write: the written key reads back the
written value, every other key is unaffected. -/
theorem lookup_objSet (o : List (String × JSValue)) (k k' : String) (v : JSValue) :
    List.lookup k' (objSet o k v) = if k' = k then some v else List.lookup k' o := by
  induction o with
  | nil =>
    by_cases h : k' = k
    · simp [objSet, List.lookup_cons, beq_iff_eq.mpr h, h]
    · simp [objSet, List.lookup_cons, beq_eq_false_iff_ne.mpr h, h]
  | cons p rest ih =>
    obtain ⟨k1, v1⟩ := p
    by_cases h1 : k1 = k
    · subst h1
      by_cases h2 : k' = k1
      · simp [objSet, List.lookup_cons, beq_iff_eq.mpr h2, h2]
      · simp [objSet, List.lookup_cons, beq_eq_false_iff_ne.mpr h2, h2]
    · by_cases h2 : k' = k1
      · subst h2
        have h3 : ¬k' = k := fun hh => h1 (hh ▸ rfl)
        simp [objSet, h1, List.lookup_cons, h3]
      · by_cases h3 : k' = k
        · subst h3
          have h4 : (k' == k1) = false := beq_eq_false_iff_ne.mpr h2
          simp [objSet, h1, List.lookup_cons, h4, ih]
        · simp [objSet, h1, List.lookup_cons, beq_eq_false_iff_ne.mpr h2, h3, ih]

/-- Keys after a property write are the old keys plus the written key. -/
theorem mem_keys_objSet (o : List (String × JSValue)) (k k' : String) (v : JSValue) :
    (k' ∈ (objSet o k v).map Prod.fst) ↔ k' ∈ o.map Prod.fst ∨ k' = k := by
  induction o with
  | nil => simp [objSet]
  | cons p rest ih =>
    obtain ⟨k1, v1⟩ := p
    by_cases h1 : k1 = k
    · subst h1
      simp [objSet]
      tauto
    · simp only [objSet, if_neg h1, List.map_cons, List.mem_cons, ih]
      tauto

/-- A key not assigned by the spread keeps its binding from the base object. -/
theorem lookup_setFold_notmem (g : String → JSValue) :
    ∀ (ks : List String) (base : List (String × JSValue)) (k : String),
      k ∉ ks → List.lookup k (setFold base g ks) = List.lookup k base := by
  intro ks
  induction ks with
  | nil => intro base k _; rfl
  | cons a rest ih =>
    intro base k hk
    simp only [List.mem_cons, not_or] at hk
    rw [setFold, ih _ _ hk.2, lookup_objSet]
    simp [hk.1]

/-- A key assigned by the spread reads back the assigned value (keys are
pairwise distinct, as `Object.keys` of an object guarantees). -/
theorem lookup_setFold_mem (g : String → JSValue) :
    ∀ (ks : List String) (base : List (String × JSValue)) (k : String),
      ks.Nodup → k ∈ ks → List.lookup k (setFold base g ks) = some (g k) := by
  intro ks
  induction ks with
  | nil => intro base k _ hk; cases hk
  | cons a rest ih =>
    intro base k hnd hk
    have hnd2 := List.nodup_cons.mp hnd
    rcases List.mem_cons.mp hk with h | h
    · subst h
      rw [setFold, lookup_setFold_notmem g _ _ _ hnd2.1, lookup_objSet]
      simp
    · rw [setFold]
      exact ih _ _ hnd2.2 h

/-- Keys after the spread are the base keys plus the spread keys. -/
theorem mem_keys_setFold (g : String → JSValue) :
    ∀ (ks : List String) (base : List (String × JSValue)) (k : String),
      (k ∈ (setFold base g ks).map Prod.fst) ↔ k ∈ base.map Prod.fst ∨ k ∈ ks := by
  intro ks
  induction ks with
  | nil => intro base k; simp [setFold]
  | cons a rest ih =>
    intro base k
    rw [setFold, ih, mem_keys_objSet]
    simp only [List.mem_cons]
    tauto

/-- A key outside an object's key list has no binding. -/
theorem lookup_eq_none_of_not_mem {k : String} :
    ∀ {o : List (String × JSValue)}, k ∉ o.map Prod.fst → List.lookup k o = none := by
  intro o
  induction o with
  | nil => intro _; rfl
  | cons p rest ih =>
    obtain ⟨k1, v1⟩ := p
    intro h
    simp only [List.map_cons, List.mem_cons, not_or] at h
    simp [List.lookup_cons, beq_eq_false_iff_ne.mpr h.1, ih h.2]

/-- A key in an object's key list has a binding. -/
theorem exists_lookup_of_mem {k : String} :
    ∀ {o : List (String × JSValue)}, k ∈ o.map Prod.fst → ∃ v, List.lookup k o = some v := by
  intro o
  induction o with
  | nil => intro h; cases h
  | cons p rest ih =>
    obtain ⟨k1, v1⟩ := p
    intro h
    by_cases h1 : k = k1
    · exact ⟨v1, by simp [List.lookup_cons, beq_iff_eq.mpr h1]⟩
    · rcases List.mem_cons.mp h with h2 | h2
      · exact absurd h2 h1
      · obtain ⟨v, hv⟩ := ih h2
        exact ⟨v, by simp [List.lookup_cons, beq_eq_false_iff_ne.mpr h1, hv]⟩

/-- Inserting into the index-key sort permutes an insertion at the head. -/
theorem insertIdxKey_perm (k : String) :
    ∀ l : List String, List.Perm (insertIdxKey k l) (k :: l) := by
  intro l
  induction l with
  | nil => exact List.Perm.refl _
  | cons a r ih =>
    by_cases h : idxVal k < idxVal a
    · rw [insertIdxKey, if_pos h]
    · rw [insertIdxKey, if_neg h]
      exact (ih.cons a).trans (List.Perm.swap k a r)

/-- The index-key sort is a permutation. -/
theorem sortIdxKeys_perm : ∀ l : List String, List.Perm (sortIdxKeys l) l := by
  intro l
  induction l with
  | nil => exact List.Perm.refl _
  | cons a r ih =>
    rw [show sortIdxKeys (a :: r) = insertIdxKey a (sortIdxKeys r) from rfl]
    exact (insertIdxKey_perm a _).trans (ih.cons a)

/-- The `Object.keys` ordering is a permutation of the insertion-order keys. -/
theorem jsOwnKeys_perm (fields : List (String × JSValue)) :
    List.Perm (jsOwnKeys fields) (fields.map Prod.fst) := by
  unfold jsOwnKeys
  refine ((sortIdxKeys_perm _).append_right _).trans ?_
  exact List.filter_append_perm _ _

/-- A truthy value is not the empty string. -/
theorem isEmptyStr_eq_false_of_truthy {v : JSValue} (h : truthy v = true) :
    isEmptyStr v = false := by
  cases v <;> simp_all [truthy, isEmptyStr]

/-- A valid numeric coordinate (finite number, or string parsing to a finite
float) never converts to NaN. -/
theorem validNumericCoord_not_nan {v : JSValue} (h : validNumericCoord v = true) :
    jsIsNaN (parseFloatVal v) = false := by
  cases v with
  | num n => cases n <;> simp_all [validNumericCoord, isFiniteNum, parseFloatVal, jsIsNaN]
  | str s =>
    have hv : parseFloatVal (.str s) = parseFloatStr s := by
      simp [parseFloatVal, jsToString]
    rw [hv]
    simp only [validNumericCoord] at h
    cases hn : parseFloatStr s <;> simp_all [isFiniteNum, jsIsNaN]
  | undefined => simp [validNumericCoord] at h
  | null => simp [validNumericCoord] at h
  | bool b => simp [validNumericCoord] at h
  | arr elems => simp [validNumericCoord] at h
  | obj fields => simp [validNumericCoord] at h

/-- When the location is truthy, both coordinates are truthy and neither
converts to NaN, `processData` succeeds and builds the spread record. -/
theorem processData_obj_success {fields : List (String × JSValue)}
    (h1 : truthy (jsGet (.obj fields) "localizacao") = true)
    (h2 : truthy (jsGet (jsGet (.obj fields) "localizacao") "latitude") = true)
    (h3 : truthy (jsGet (jsGet (.obj fields) "localizacao") "longitude") = true)
    (h4 : jsIsNaN (parseFloatVal (jsGet (jsGet (.obj fields) "localizacao") "latitude")) = false)
    (h5 : jsIsNaN (parseFloatVal (jsGet (jsGet (.obj fields) "localizacao") "longitude")) = false) :
    processData (.obj fields) =
      .ok (some (.obj (setFold
        [("GPS_Latitude", .num (parseFloatVal (jsGet (jsGet (.obj fields) "localizacao") "latitude"))),
         ("GPS_Longitude", .num (parseFloatVal (jsGet (jsGet (.obj fields) "localizacao") "longitude"))),
         ("numero", jsOr (jsGet (.obj fields) "numero") (.str "")),
         ("linha", jsOr (jsGet (.obj fields) "linha") (.str "")),
         ("direcao", jsOr (jsGet (.obj fields) "direcao") (.num (.finite 0)))]
        (jsGet (.obj fields))
        ((jsOwnKeys fields).filter (fun k => !(decide (k ∈ excludedKeys))))))) := by
  have e2 := isEmptyStr_eq_false_of_truthy h2
  have e3 := isEmptyStr_eq_false_of_truthy h3
  simp [processData, h1, h2, h3, h4, h5, e2, e3, jsOwnKeysOf]

/-- Whenever the location is falsy, a coordinate is falsy, or a coordinate
converts to NaN, `processData` rejects the vehicle. -/
theorem processData_obj_reject {fields : List (String × JSValue)}
    (h : truthy (jsGet (.obj fields) "localizacao") = false ∨
         truthy (jsGet (jsGet (.obj fields) "localizacao") "latitude") = false ∨
         truthy (jsGet (jsGet (.obj fields) "localizacao") "longitude") = false ∨
         jsIsNaN (parseFloatVal (jsGet (jsGet (.obj fields) "localizacao") "latitude")) = true ∨
         jsIsNaN (parseFloatVal (jsGet (jsGet (.obj fields) "localizacao") "longitude")) = true) :
    processData (.obj fields) = .ok none := by
  rcases h with h | h | h | h | h
  · simp [processData, h]
  · cases h1 : truthy (jsGet (.obj fields) "localizacao") with
    | false => simp [processData, h1]
    | true => simp [processData, h1, h]
  · cases h1 : truthy (jsGet (.obj fields) "localizacao") with
    | false => simp [processData, h1]
    | true => simp [processData, h1, h]
  · cases h1 : truthy (jsGet (.obj fields) "localizacao") with
    | false => simp [processData, h1]
    | true =>
      cases h2 : truthy (jsGet (jsGet (.obj fields) "localizacao") "latitude") with
      | false => simp [processData, h1, h2]
      | true =>
        cases h3 : truthy (jsGet (jsGet (.obj fields) "localizacao") "longitude") with
        | false => simp [processData, h1, h2, h3]
        | true =>
          have e2 := isEmptyStr_eq_false_of_truthy h2
          have e3 := isEmptyStr_eq_false_of_truthy h3
          simp [processData, h1, h2, h3, e2, e3, h]
  · cases h1 : truthy (jsGet (.obj fields) "localizacao") with
    | false => simp [processData, h1]
    | true =>
      cases h2 : truthy (jsGet (jsGet (.obj fields) "localizacao") "latitude") with
      | false => simp [processData, h1, h2]
      | true =>
        cases h3 : truthy (jsGet (jsGet (.obj fields) "localizacao") "longitude") with
        | false => simp [processData, h1, h2, h3]
        | true =>
          have e2 := isEmptyStr_eq_false_of_truthy h2
          have e3 := isEmptyStr_eq_false_of_truthy h3
          simp [processData, h1, h2, h3, e2, e3, h]

/-- C2 (amended): a vehicle object is rejected exactly when its
location is missing/falsy, its latitude or longitude is falsy (absent, null,
false, the number 0, NaN, or the empty string), or a coordinate parses to
NaN; and every non-rejected vehicle yields a full record — never a partial or
null-coordinate one.  (Non-finite parses such as "Infinity" are accepted,
unlike the original claim.) -/
theorem c2_rejection_amended (fields : List (String × JSValue)) :
    (processData (.obj fields) = .ok none ↔ rejectsAmended (.obj fields) = true) ∧
    (processData (.obj fields) = .ok none ∨
      ∃ rec, processData (.obj fields) = .ok (some (.obj rec))) := by
  have hra : rejectsAmended (.obj fields) = true ↔
      (truthy (jsGet (.obj fields) "localizacao") = false ∨
       truthy (jsGet (jsGet (.obj fields) "localizacao") "latitude") = false ∨
       truthy (jsGet (jsGet (.obj fields) "localizacao") "longitude") = false ∨
       jsIsNaN (parseFloatVal (jsGet (jsGet (.obj fields) "localizacao") "latitude")) = true ∨
       jsIsNaN (parseFloatVal (jsGet (jsGet (.obj fields) "localizacao") "longitude")) = true) := by
    simp only [rejectsAmended, Bool.or_eq_true, Bool.not_eq_true']
    tauto
  by_cases hr : rejectsAmended (.obj fields) = true
  · have hrej := processData_obj_reject (hra.mp hr)
    exact ⟨⟨fun _ => hr, fun _ => hrej⟩, Or.inl hrej⟩
  · have hb : rejectsAmended (.obj fields) = false := by
      cases hx : rejectsAmended (.obj fields) with
      | false => rfl
      | true => exact absurd hx hr
    simp only [rejectsAmended, Bool.or_eq_false_iff, Bool.not_eq_false'] at hb
    obtain ⟨⟨⟨⟨hb1, hb2⟩, hb3⟩, hb4⟩, hb5⟩ := hb
    have hsucc := processData_obj_success hb1 hb2 hb3 hb4 hb5
    refine ⟨⟨fun h => ?_, fun h => absurd h hr⟩, Or.inr ⟨_, hsucc⟩⟩
    rw [hsucc] at h
    simp at h

/-- Counterexample to C2 as stated: a latitude of "Infinity" does not parse
to a finite float, so the claim demands rejection, yet the code (which only
tests `isNaN`) produces a record carrying the Infinity coordinate. -/
theorem c2_rejection_counterexample :
    isFiniteNum (parseFloatVal (jsGet (jsGet vehInf "localizacao") "latitude")) = false ∧
    processData vehInf = .ok (some recInf) ∧
    processData vehInf ≠ .ok none := by
  refine ⟨rfl, rfl, ?_⟩
  intro h
  rw [show processData vehInf = .ok (some recInf) from rfl] at h
  simp at h

/-- C9: a vehicle whose latitude or longitude is falsy — the number 0, null,
false, NaN, the empty string, or absent — is rejected by the normaliser, even
though 0 is a perfectly valid finite coordinate. -/
theorem c9_falsy_zero_rejected :
    ∀ fields : List (String × JSValue),
      truthy (jsGet (jsGet (.obj fields) "localizacao") "latitude") = false ∨
      truthy (jsGet (jsGet (.obj fields) "localizacao") "longitude") = false →
      processData (.obj fields) = .ok none := by
  intro fields h
  exact processData_obj_reject (h.elim (fun h2 => Or.inr (Or.inl h2))
    (fun h2 => Or.inr (Or.inr (Or.inl h2))))

/-- Witness for C9 at a concrete input: latitude equal to the number 0. -/
theorem c9_falsy_zero_rejected_witness :
    (truthy (jsGet (jsGet vehZero "localizacao") "latitude") = false ∨
     truthy (jsGet (jsGet vehZero "localizacao") "longitude") = false) ∧
    processData vehZero = .ok none :=
  ⟨Or.inl rfl,
   c9_falsy_zero_rejected
     [("localizacao", .obj [("latitude", .num (.finite 0)), ("longitude", .num (.finite 7))])]
     (Or.inl rfl)⟩

/-- Counterexample to C1 as stated: the number 0 is a valid numeric
coordinate, yet the vehicle carrying it is rejected instead of normalised
(JS truthiness treats 0 as falsy). -/
theorem c1_normalizer_counterexample :
    validNumericCoord (jsGet (jsGet vehZero "localizacao") "latitude") = true ∧
    validNumericCoord (jsGet (jsGet vehZero "localizacao") "longitude") = true ∧
    processData vehZero = .ok none :=
  ⟨rfl, rfl, rfl⟩

/-- C1 (amended): for a vehicle object (unique keys) whose location holds
valid numeric coordinates that are also truthy (excluding the falsy number
0), and whose own keys do not collide with the canonical output keys, the
normaliser produces a record holding the parsed float coordinates in
GPS_Latitude/GPS_Longitude, the defaults "" / "" / 0 for numero, linha and
direcao exactly when those keys are absent from the raw object, every other
raw key except localizacao/latitude/longitude preserved with its original
value, and the consumed keys absent from the record. -/
theorem c1_normalizer_amended
    (fields locF : List (String × JSValue))
    (hnd : (fields.map Prod.fst).Nodup)
    (hloc : List.lookup "localizacao" fields = some (.obj locF))
    (hlatv : validNumericCoord (jsGet (.obj locF) "latitude") = true)
    (hlatt : truthy (jsGet (.obj locF) "latitude") = true)
    (hlngv : validNumericCoord (jsGet (.obj locF) "longitude") = true)
    (hlngt : truthy (jsGet (.obj locF) "longitude") = true)
    (hg1 : "GPS_Latitude" ∉ fields.map Prod.fst)
    (hg2 : "GPS_Longitude" ∉ fields.map Prod.fst) :
    ∃ rec, processData (.obj fields) = .ok (some (.obj rec)) ∧
      List.lookup "GPS_Latitude" rec =
        some (.num (parseFloatVal (jsGet (.obj locF) "latitude"))) ∧
      List.lookup "GPS_Longitude" rec =
        some (.num (parseFloatVal (jsGet (.obj locF) "longitude"))) ∧
      ("numero" ∉ fields.map Prod.fst → List.lookup "numero" rec = some (.str "")) ∧
      ("linha" ∉ fields.map Prod.fst → List.lookup "linha" rec = some (.str "")) ∧
      ("direcao" ∉ fields.map Prod.fst → List.lookup "direcao" rec = some (.num (.finite 0))) ∧
      (∀ k, k ∈ fields.map Prod.fst → k ∉ excludedKeys →
         List.lookup k rec = List.lookup k fields) ∧
      "localizacao" ∉ rec.map Prod.fst ∧
      "latitude" ∉ rec.map Prod.fst ∧
      "longitude" ∉ rec.map Prod.fst := by
  have hloceq : jsGet (.obj fields) "localizacao" = .obj locF := by
    simp [jsGet, hloc]
  have h1 : truthy (jsGet (.obj fields) "localizacao") = true := by
    rw [hloceq]; rfl
  have h2 : truthy (jsGet (jsGet (.obj fields) "localizacao") "latitude") = true := by
    rw [hloceq]; exact hlatt
  have h3 : truthy (jsGet (jsGet (.obj fields) "localizacao") "longitude") = true := by
    rw [hloceq]; exact hlngt
  have h4 : jsIsNaN (parseFloatVal (jsGet (jsGet (.obj fields) "localizacao") "latitude")) = false := by
    rw [hloceq]; exact validNumericCoord_not_nan hlatv
  have h5 : jsIsNaN (parseFloatVal (jsGet (jsGet (.obj fields) "localizacao") "longitude")) = false := by
    rw [hloceq]; exact validNumericCoord_not_nan hlngv
  have hsucc := processData_obj_success h1 h2 h3 h4 h5
  rw [hloceq] at hsucc
  have hperm := jsOwnKeys_perm fields
  have hksmem : ∀ k, k ∈ (jsOwnKeys fields).filter (fun k => !(decide (k ∈ excludedKeys))) ↔
      k ∈ fields.map Prod.fst ∧ ¬k ∈ excludedKeys := by
    intro k
    simp [List.mem_filter, hperm.mem_iff]
  have hksnd : ((jsOwnKeys fields).filter (fun k => !(decide (k ∈ excludedKeys)))).Nodup :=
    (hperm.symm.nodup hnd).filter _
  refine ⟨_, hsucc, ?_, ?_, ?_, ?_, ?_, ?_, ?_, ?_, ?_⟩
  · have hnot : "GPS_Latitude" ∉ (jsOwnKeys fields).filter (fun k => !(decide (k ∈ excludedKeys))) :=
      fun hmem => hg1 ((hksmem _).mp hmem).1
    rw [lookup_setFold_notmem _ _ _ _ hnot]
    rfl
  · have hnot : "GPS_Longitude" ∉ (jsOwnKeys fields).filter (fun k => !(decide (k ∈ excludedKeys))) :=
      fun hmem => hg2 ((hksmem _).mp hmem).1
    rw [lookup_setFold_notmem _ _ _ _ hnot]
    rfl
  · intro hn
    have hnot : "numero" ∉ (jsOwnKeys fields).filter (fun k => !(decide (k ∈ excludedKeys))) :=
      fun hmem => hn ((hksmem _).mp hmem).1
    rw [lookup_setFold_notmem _ _ _ _ hnot]
    have hget : jsGet (.obj fields) "numero" = .undefined := by
      simp [jsGet, lookup_eq_none_of_not_mem hn]
    rw [hget]
    rfl
  · intro hn
    have hnot : "linha" ∉ (jsOwnKeys fields).filter (fun k => !(decide (k ∈ excludedKeys))) :=
      fun hmem => hn ((hksmem _).mp hmem).1
    rw [lookup_setFold_notmem _ _ _ _ hnot]
    have hget : jsGet (.obj fields) "linha" = .undefined := by
      simp [jsGet, lookup_eq_none_of_not_mem hn]
    rw [hget]
    rfl
  · intro hn
    have hnot : "direcao" ∉ (jsOwnKeys fields).filter (fun k => !(decide (k ∈ excludedKeys))) :=
      fun hmem => hn ((hksmem _).mp hmem).1
    rw [lookup_setFold_notmem _ _ _ _ hnot]
    have hget : jsGet (.obj fields) "direcao" = .undefined := by
      simp [jsGet, lookup_eq_none_of_not_mem hn]
    rw [hget]
    rfl
  · intro k hk hke
    have hkks : k ∈ (jsOwnKeys fields).filter (fun k => !(decide (k ∈ excludedKeys))) :=
      (hksmem k).mpr ⟨hk, hke⟩
    rw [lookup_setFold_mem _ _ _ _ hksnd hkks]
    obtain ⟨v, hv⟩ := exists_lookup_of_mem hk
    rw [hv]
    simp [jsGet, hv]
  · intro hmem
    rw [mem_keys_setFold] at hmem
    rcases hmem with hmem | hmem
    · simp at hmem
    · exact ((hksmem _).mp hmem).2 (by simp [excludedKeys])
  · intro hmem
    rw [mem_keys_setFold] at hmem
    rcases hmem with hmem | hmem
    · simp at hmem
    · exact ((hksmem _).mp hmem).2 (by simp [excludedKeys])
  · intro hmem
    rw [mem_keys_setFold] at hmem
    rcases hmem with hmem | hmem
    · simp at hmem
    · exact ((hksmem _).mp hmem).2 (by simp [excludedKeys])

/-- Witness for the amended C1 at a concrete input: a vehicle with numeric
coordinates 5 and 7, a vehicle number and a line id. -/
theorem c1_normalizer_amended_witness :
    (([("localizacao", JSValue.obj [("latitude", JSValue.num (.finite 5)), ("longitude", JSValue.num (.finite 7))]),
       ("numero", JSValue.str "123"), ("linha", JSValue.str "2207")].map Prod.fst).Nodup) ∧
    List.lookup "localizacao"
      [("localizacao", JSValue.obj [("latitude", JSValue.num (.finite 5)), ("longitude", JSValue.num (.finite 7))]),
       ("numero", JSValue.str "123"), ("linha", JSValue.str "2207")] =
      some (.obj [("latitude", JSValue.num (.finite 5)), ("longitude", JSValue.num (.finite 7))]) ∧
    validNumericCoord (jsGet (.obj [("latitude", JSValue.num (.finite 5)), ("longitude", JSValue.num (.finite 7))]) "latitude") = true ∧
    truthy (jsGet (.obj [("latitude", JSValue.num (.finite 5)), ("longitude", JSValue.num (.finite 7))]) "latitude") = true ∧
    validNumericCoord (jsGet (.obj [("latitude", JSValue.num (.finite 5)), ("longitude", JSValue.num (.finite 7))]) "longitude") = true ∧
    truthy (jsGet (.obj [("latitude", JSValue.num (.finite 5)), ("longitude", JSValue.num (.finite 7))]) "longitude") = true ∧
    ∃ rec, processData (.obj
        [("localizacao", JSValue.obj [("latitude", JSValue.num (.finite 5)), ("longitude", JSValue.num (.finite 7))]),
         ("numero", JSValue.str "123"), ("linha", JSValue.str "2207")]) = .ok (some (.obj rec)) ∧
      List.lookup "GPS_Latitude" rec =
        some (.num (parseFloatVal (jsGet (.obj [("latitude", JSValue.num (.finite 5)), ("longitude", JSValue.num (.finite 7))]) "latitude"))) ∧
      List.lookup "GPS_Longitude" rec =
        some (.num (parseFloatVal (jsGet (.obj [("latitude", JSValue.num (.finite 5)), ("longitude", JSValue.num (.finite 7))]) "longitude"))) ∧
      ("numero" ∉ ([("localizacao", JSValue.obj [("latitude", JSValue.num (.finite 5)), ("longitude", JSValue.num (.finite 7))]),
                    ("numero", JSValue.str "123"), ("linha", JSValue.str "2207")].map Prod.fst) →
        List.lookup "numero" rec = some (.str "")) ∧
      ("linha" ∉ ([("localizacao", JSValue.obj [("latitude", JSValue.num (.finite 5)), ("longitude", JSValue.num (.finite 7))]),
                   ("numero", JSValue.str "123"), ("linha", JSValue.str "2207")].map Prod.fst) →
        List.lookup "linha" rec = some (.str "")) ∧
      ("direcao" ∉ ([("localizacao", JSValue.obj [("latitude", JSValue.num (.finite 5)), ("longitude", JSValue.num (.finite 7))]),
                     ("numero", JSValue.str "123"), ("linha", JSValue.str "2207")].map Prod.fst) →
        List.lookup "direcao" rec = some (.num (.finite 0))) ∧
      (∀ k, k ∈ ([("localizacao", JSValue.obj [("latitude", JSValue.num (.finite 5)), ("longitude", JSValue.num (.finite 7))]),
                  ("numero", JSValue.str "123"), ("linha", JSValue.str "2207")].map Prod.fst) →
         k ∉ excludedKeys →
         List.lookup k rec = List.lookup k
           [("localizacao", JSValue.obj [("latitude", JSValue.num (.finite 5)), ("longitude", JSValue.num (.finite 7))]),
            ("numero", JSValue.str "123"), ("linha", JSValue.str "2207")]) ∧
      "localizacao" ∉ rec.map Prod.fst ∧
      "latitude" ∉ rec.map Prod.fst ∧
      "longitude" ∉ rec.map Prod.fst :=
  ⟨by decide, rfl, rfl, rfl, rfl, rfl,
   c1_normalizer_amended
     [("localizacao", JSValue.obj [("latitude", JSValue.num (.finite 5)), ("longitude", JSValue.num (.finite 7))]),
      ("numero", JSValue.str "123"), ("linha", JSValue.str "2207")]
     [("latitude", JSValue.num (.finite 5)), ("longitude", JSValue.num (.finite 7))]
     (by decide) rfl rfl rfl rfl rfl (by decide) (by decide)⟩
